import Mathlib

/-!
Verification of the lunch-management attendance and notification subsystem
(`backend_server.py`), shallowly embedded in Lean.

Dates are modelled as epoch days (days since 1970-01-01, an `Int`), produced
from civil year/month/day by `daysFromCivil` (Hinnant's days-from-civil
algorithm, the same arithmetic the `datetime.date` ordinal is built on).
Python's `date.weekday()` (Monday = 0 .. Sunday = 6) becomes `pyWeekday`;
1970-01-01 was a Thursday, hence the offset 3.  Times of day are `Nat`
microseconds since midnight, matching `datetime`'s microsecond resolution.
-/

namespace Lunch

/-- Days since 1970-01-01 of the civil date `y-m-d` (Hinnant's algorithm).
All divisions here act on non-negative operands for the years in use. -/
def daysFromCivil (y m d : Int) : Int :=
  let y' := if 2 < m then y else y - 1
  let era := (if 0 ≤ y' then y' else y' - 399) / 400
  let yoe := y' - era * 400
  let mp := (m + 9) % 12
  let doy := (153 * mp + 2) / 5 + d - 1
  let doe := yoe * 365 + yoe / 4 - yoe / 100 + doy
  era * 146097 + doe - 719468

/-- Python's `date.weekday()`: Monday = 0 .. Sunday = 6. -/
def pyWeekday (d : Int) : Int := (d + 3) % 7

/-- `is_weekend` from `backend_server.py`: Saturday = 5, Sunday = 6. -/
def is_weekend (d : Int) : Bool := decide (5 ≤ pyWeekday d)

/-- The cutoff instant 21:30:00.000000 as microseconds since midnight,
from `is_after_cutoff_time` (`now.replace(hour=21, minute=30, ...)`). -/
def cutoffMicros : Nat := 77400000000

/-- `is_after_cutoff_time` from `backend_server.py`: strict `now > cutoff`,
with the current time given as microseconds since midnight. -/
def is_after_cutoff_time (nowMicros : Nat) : Bool := decide (cutoffMicros < nowMicros)

/-- One row of the `attendance` table. -/
structure AttendanceRecord where
  user_id : Nat
  date : Int
  status : String
  marked_at : Nat
deriving DecidableEq

/-- The `attendance` table, as the list of its rows. -/
abbrev Store := List AttendanceRecord

/-- The unique key of the `attendance` table: `(user_id, date)`. -/
def keyMatch (u : Nat) (d : Int) (r : AttendanceRecord) : Bool :=
  r.user_id == u && r.date == d

/-- The `INSERT ... ON DUPLICATE KEY UPDATE status = ..., marked_at =
CURRENT_TIMESTAMP` statement of `mark_attendance`: update the row with the
matching key in place if one exists, otherwise append a fresh row. -/
def upsert (st : Store) (u : Nat) (d : Int) (s : String) (ts : Nat) : Store :=
  if st.any (keyMatch u d) then
    st.map (fun r => if keyMatch u d r then ⟨u, d, s, ts⟩ else r)
  else
    st ++ [⟨u, d, s, ts⟩]

/-- Rejection reasons of the attendance submission path. -/
inductive Rejection
  | WeekendRejected
  | InvalidDate
deriving DecidableEq

/-- Message returned by `mark_attendance` when the cutoff rollover fires. -/
def rolloverMessage : String := "Cutoff time passed. Attendance marked for tomorrow."

/-- Message returned by `mark_attendance` when no rollover occurs. -/
def successMessage : String := "Attendance marked successfully."

/-- The `/attendance` handler `mark_attendance` from `backend_server.py`,
after date parsing: reject weekends on the requested date, roll a same-day
request past the cutoff over to `today + 1`, then upsert.  Returns the
(possibly unchanged) store together with either the rejection or the
effective date, the rollover flag and the caller-visible message. -/
def mark_attendance (st : Store) (u : Nat) (req today : Int) (nowMicros : Nat)
    (s : String) (ts : Nat) : Store × Except Rejection (Int × Bool × String) :=
  if is_weekend req then
    (st, .error .WeekendRejected)
  else if req = today ∧ is_after_cutoff_time nowMicros then
    (upsert st u (today + 1) s ts, .ok (today + 1, true, rolloverMessage))
  else
    (upsert st u req s ts, .ok (req, false, successMessage))

/-- A sequence of submissions, applied in order; each element carries
`(user, requestedDate, today, nowMicros, status, timestamp)`. -/
def runSubmissions (st : Store) (subs : List (Nat × Int × Int × Nat × String × Nat)) : Store :=
  subs.foldl (fun a x => (mark_attendance a x.1 x.2.1 x.2.2.1 x.2.2.2.1 x.2.2.2.2.1 x.2.2.2.2.2).1) st

/-- Number of rows of the store carrying the key `(u, d)`. -/
def countKey (st : Store) (u : Nat) (d : Int) : Nat :=
  (st.filter (keyMatch u d)).length

/-- Status and timestamp of the first row carrying the key `(u, d)`. -/
def lookupKey (st : Store) (u : Nat) (d : Int) : Option (String × Nat) :=
  (st.find? (keyMatch u d)).map (fun r => (r.status, r.marked_at))

/-- The optional `date >= start_date` / `date <= end_date` filters of
`get_user_attendance` (both bounds inclusive, each only when given). -/
def inDateRange (d : Int) (startD endD : Option Int) : Bool :=
  (match startD with
   | none => true
   | some a => decide (a ≤ d)) &&
  (match endD with
   | none => true
   | some b => decide (d ≤ b))

/-- `ORDER BY date DESC`: the row ordering used by `get_user_attendance`. -/
def dateDesc (a b : AttendanceRecord) : Prop := b.date ≤ a.date

instance : DecidableRel dateDesc := fun a b => inferInstanceAs (Decidable (b.date ≤ a.date))

instance : IsTotal AttendanceRecord dateDesc :=
  ⟨fun a b => (le_total b.date a.date).imp (fun h => h) (fun h => h)⟩

instance : IsTrans AttendanceRecord dateDesc :=
  ⟨fun _ _ _ hab hbc => le_trans hbc hab⟩

/-- The `/attendance/(user_id)` handler `get_user_attendance` from
`backend_server.py`: `SELECT * FROM attendance WHERE user_id = ... [AND date
>= start] [AND date <= end] ORDER BY date DESC`, modelled as a filter of the
store followed by a sort that is descending by date. -/
def get_user_attendance (st : Store) (u : Nat) (startD endD : Option Int) :
    List AttendanceRecord :=
  (st.filter (fun r => r.user_id == u && inDateRange r.date startD endD)).insertionSort dateDesc

/-- One row of the `notifications` table, as written by
`send_chef_notification`. -/
structure NotificationLogEntry where
  type : String
  recipient_email : String
  content : String
  office_count : Nat
  status : String
deriving DecidableEq

/-- `send_email_notification` from `backend_server.py`.  `apiKey` is the
`BREVO_API_KEY` environment variable; `resp` models the gateway call,
giving the HTTP status code of the response, or `none` when the request
raises (the `except` branch).  Returns the success flag together with the
number of `"Brevo API key not configured"` warnings this call logs. -/
def send_email_notification (apiKey : Option String) (resp : String → Option Nat)
    (recipient : String) : Bool × Nat :=
  match apiKey with
  | none => (false, 1)
  | some _ =>
    match resp recipient with
    | none => (false, 0)
    | some code => (code == 200 || code == 201 || code == 202, 0)

/-- The `body_template` f-string of `send_chef_notification`, computed once
before the per-chef loop; `dateStr` and `timeStr` stand for the already
formatted `strftime` fragments. -/
def bodyTemplate (dateStr : String) (officeCount : Nat) (timeStr : String) : String :=
  "\nDear Chef,\n\nToday\x27s office attendance count: " ++ toString officeCount ++
    " employees\n\nPlease prepare lunch accordingly.\n\nDate: " ++ dateStr ++
    "\nTime: " ++ timeStr ++ "\n\nBest regards,\nLunch Management System\n"

/-- The row that the `INSERT INTO notifications ...` statement writes for one
recipient. -/
def mkLogEntry (recipient body : String) (officeCount : Nat) (sent : Bool) :
    NotificationLogEntry :=
  ⟨"daily_count", recipient, body, officeCount, if sent then "sent" else "failed"⟩

/-- The per-chef loop of `send_chef_notification`, with fault injection on
the per-row `INSERT`: `insertFault i` means the `cursor.execute` for the
`i`-th recipient raises.  Returns the rows whose `INSERT` executed, the
total number of missing-credential warnings logged, and whether the loop was
aborted by a raising `INSERT` (the exception propagates to the `except`
handler, so later recipients are not attempted and no commit happens). -/
def dispatchLoop (apiKey : Option String) (resp : String → Option Nat)
    (insertFault : Nat → Bool) (body : String) (officeCount : Nat) :
    Nat → List String → List NotificationLogEntry × Nat × Bool
  | _, [] => ([], 0, false)
  | i, c :: cs =>
    let r := send_email_notification apiKey resp c
    if insertFault i then
      ([], r.2, true)
    else
      let rest := dispatchLoop apiKey resp insertFault body officeCount (i + 1) cs
      (mkLogEntry c body officeCount r.1 :: rest.1, r.2 + rest.2.1, rest.2.2)

/-- The outcome of one dispatch run: the log rows whose `INSERT` executed,
the rows that survive to durable storage, the warnings logged, and whether a
raising `INSERT` aborted the loop. -/
structure DispatchResult where
  attempts : List NotificationLogEntry
  durable : List NotificationLogEntry
  warnings : Nat
  aborted : Bool
deriving DecidableEq

/-- `send_chef_notification` from `backend_server.py`: skip weekends, read
the office count (`officeCount` is the value the `COUNT(*)` query returned),
and if any active chef exists, build the body once and loop over the chefs,
sending and inserting a log row per chef; a single `connection.commit()`
after the loop makes the rows durable.  An exception from any `INSERT`
(modelled by `insertFault`) or a failing commit (`commitFault`) reaches the
`except` handler before the commit takes effect, so no row of the run is
durably stored in that case. -/
def send_chef_notification (today : Int) (officeCount : Nat) (chefs : List String)
    (apiKey : Option String) (resp : String → Option Nat) (dateStr timeStr : String)
    (insertFault : Nat → Bool) (commitFault : Bool) : DispatchResult :=
  if is_weekend today then
    ⟨[], [], 0, false⟩
  else if chefs.isEmpty then
    ⟨[], [], 0, false⟩
  else
    let body := bodyTemplate dateStr officeCount timeStr
    let r := dispatchLoop apiKey resp insertFault body officeCount 0 chefs
    ⟨r.1, if r.2.2 || commitFault then [] else r.1, r.2.1, r.2.2⟩

/-- Number of log rows of a run with the given status string. -/
def countStatus (l : List NotificationLogEntry) (s : String) : Nat :=
  (l.filter (fun e => e.status == s)).length

/-- No stored attendance row has a Sunday date. -/
def noSundayRecord (st : Store) : Prop := ∀ r ∈ st, pyWeekday r.date ≠ 6

end Lunch

namespace Lunch

/-- Sanity check of the date encoding: 2024-06-10 was a Monday and
2024-06-15 a Saturday. -/
theorem weekday_encoding_check :
    pyWeekday (daysFromCivil 2024 6 10) = 0 ∧ pyWeekday (daysFromCivil 2024 6 15) = 5 := by
  decide

/-- Every row of an upserted store is either an old row or the freshly
written row. -/
theorem mem_upsert {st : Store} {u : Nat} {d : Int} {s : String} {ts : Nat}
    {r : AttendanceRecord} (h : r ∈ upsert st u d s ts) :
    r ∈ st ∨ r = ⟨u, d, s, ts⟩ := by
  unfold upsert at h
  by_cases hany : st.any (keyMatch u d)
  · simp [hany, List.mem_map] at h
    rcases h with ⟨a, ha, hr⟩
    by_cases hk : keyMatch u d a
    · right
      simp [hk] at hr
      exact hr.symm
    · left
      simp [hk] at hr
      exact hr ▸ ha
  · simp [hany] at h
    rcases h with h | h
    · exact .inl h
    · exact .inr h

/-- A non-weekend date is not a Sunday. -/
theorem pyWeekday_ne_six_of_not_weekend {d : Int} (h : is_weekend d = false) :
    pyWeekday d ≠ 6 := by
  unfold is_weekend pyWeekday at *
  simp only [decide_eq_false_iff_not] at h
  omega

/-- The day after a non-weekend day is not a Sunday (it is at latest a
Saturday, reached by the Friday rollover). -/
theorem pyWeekday_succ_ne_six_of_not_weekend {d : Int} (h : is_weekend d = false) :
    pyWeekday (d + 1) ≠ 6 := by
  unfold is_weekend pyWeekday at *
  simp only [decide_eq_false_iff_not] at h
  omega

/-- C1: when the requested date equals today, is not rejected by the
preceding weekend rule, and the current time is strictly after the 21:30
cutoff, the submission resolves to effective date `requestedDate + 1` with
the rollover flag and the rollover message, and the record is upserted under
that rolled-over date. -/
theorem cutoff_rollover_effective_next_day (st : Store) (u : Nat) (req today : Int)
    (nowMicros : Nat) (s : String) (ts : Nat)
    (hw : is_weekend req = false) (heq : req = today)
    (hc : is_after_cutoff_time nowMicros = true) :
    mark_attendance st u req today nowMicros s ts =
      (upsert st u (req + 1) s ts, .ok (req + 1, true, rolloverMessage)) := by
  subst heq
  simp [mark_attendance, hw, hc]

/-- C1 witness: cutoff 21:30, current time 21:45 (78300000000 μs) on Monday
2024-06-10; a request for 2024-06-10 resolves to effective date 2024-06-11
with rollover. -/
theorem cutoff_rollover_effective_next_day_witness :
    mark_attendance [] 1 (daysFromCivil 2024 6 10) (daysFromCivil 2024 6 10)
        78300000000 "office" 7 =
      (upsert [] 1 (daysFromCivil 2024 6 10 + 1) "office" 7,
        .ok (daysFromCivil 2024 6 10 + 1, true, rolloverMessage)) ∧
    daysFromCivil 2024 6 10 + 1 = daysFromCivil 2024 6 11 := by
  refine ⟨cutoff_rollover_effective_next_day [] 1 (daysFromCivil 2024 6 10)
    (daysFromCivil 2024 6 10) 78300000000 "office" 7 (by decide) rfl (by decide), by decide⟩

/-- C3: a submission whose requested date falls on Saturday or Sunday is
rejected with `WeekendRejected`, for every current time, and the store is
unchanged. -/
theorem weekend_request_rejected (st : Store) (u : Nat) (req today : Int)
    (nowMicros : Nat) (s : String) (ts : Nat) (hw : is_weekend req = true) :
    mark_attendance st u req today nowMicros s ts = (st, .error .WeekendRejected) := by
  simp [mark_attendance, hw]

/-- C3 witness: a request for Saturday 2024-06-15 is rejected and writes
nothing. -/
theorem weekend_request_rejected_witness :
    mark_attendance [] 1 (daysFromCivil 2024 6 15) (daysFromCivil 2024 6 15) 0 "office" 7 =
      ([], .error .WeekendRejected) :=
  weekend_request_rejected [] 1 (daysFromCivil 2024 6 15) (daysFromCivil 2024 6 15)
    0 "office" 7 (by decide)

/-- C4: a non-weekend submission whose requested date is not today, or is
today with the current time at or before the cutoff, resolves to the
requested date itself with no rollover and the plain success message. -/
theorem no_rollover_outside_cutoff (st : Store) (u : Nat) (req today : Int)
    (nowMicros : Nat) (s : String) (ts : Nat) (hw : is_weekend req = false)
    (h : req ≠ today ∨ is_after_cutoff_time nowMicros = false) :
    mark_attendance st u req today nowMicros s ts =
      (upsert st u req s ts, .ok (req, false, successMessage)) := by
  have hcond : ¬(req = today ∧ is_after_cutoff_time nowMicros = true) := by
    rcases h with h | h
    · exact fun hc => h hc.1
    · intro hc
      rw [h] at hc
      exact Bool.false_ne_true hc.2
  simp only [mark_attendance, hw, Bool.false_eq_true, if_false]
  rw [if_neg hcond]

/-- C4 witness: on Monday 2024-06-10 at 21:45 (after the cutoff), a request
for Tuesday 2024-06-11 is stored for 2024-06-11 itself with no rollover. -/
theorem no_rollover_outside_cutoff_witness :
    mark_attendance [] 1 (daysFromCivil 2024 6 11) (daysFromCivil 2024 6 10)
        78300000000 "office" 7 =
      (upsert [] 1 (daysFromCivil 2024 6 11) "office" 7,
        .ok (daysFromCivil 2024 6 11, false, successMessage)) :=
  no_rollover_outside_cutoff [] 1 (daysFromCivil 2024 6 11) (daysFromCivil 2024 6 10)
    78300000000 "office" 7 (by decide) (.inl (by decide))

/-- C2 counterexample: on Friday 2024-06-14 after the cutoff, a request for
2024-06-14 rolls over to Saturday 2024-06-15 and a record IS written for
that weekend date — the resolved (post-rollover) date is never re-checked
against the weekend rule. -/
theorem weekend_record_reachable :
    (mark_attendance [] 1 (daysFromCivil 2024 6 14) (daysFromCivil 2024 6 14)
        78300000000 "office" 7).1 =
      [⟨1, daysFromCivil 2024 6 15, "office", 7⟩] ∧
    is_weekend (daysFromCivil 2024 6 15) = true ∧
    is_weekend (daysFromCivil 2024 6 14) = false := by
  decide

/-- One submission step preserves the no-Sunday-record invariant and
rejects weekend requested dates without writing. -/
theorem noSunday_step (st : Store) (u : Nat) (req today : Int)
    (nowMicros : Nat) (s : String) (ts : Nat) (hst : noSundayRecord st) :
    noSundayRecord (mark_attendance st u req today nowMicros s ts).1 ∧
    (is_weekend req = true →
      mark_attendance st u req today nowMicros s ts = (st, .error .WeekendRejected)) := by
  refine ⟨?_, fun hw => by simp [mark_attendance, hw]⟩
  intro r hr
  by_cases hw : is_weekend req
  · simp [mark_attendance, hw] at hr
    exact hst r hr
  · by_cases hc : req = today ∧ is_after_cutoff_time nowMicros = true
    · rw [mark_attendance, if_neg (by simp [hw]), if_pos hc] at hr
      rcases mem_upsert hr with h | h
      · exact hst r h
      · rw [h]
        rcases hc with ⟨hrt, _⟩
        subst hrt
        exact pyWeekday_succ_ne_six_of_not_weekend (by simpa using hw)
    · rw [mark_attendance, if_neg (by simp [hw]), if_neg hc] at hr
      rcases mem_upsert hr with h | h
      · exact hst r h
      · rw [h]
        exact pyWeekday_ne_six_of_not_weekend (by simpa using hw)

/-- C2 (amended): the submission path rejects exactly the weekend
*requested* dates, writing nothing in that case; the rolled-over effective
date is not re-checked, so a Saturday record is reachable (Friday after
cutoff, see the counterexample), but after any sequence of submissions
starting from a store with no Sunday record there is still no Sunday
record. -/
theorem no_sunday_record_invariant (st : Store)
    (subs : List (Nat × Int × Int × Nat × String × Nat))
    (u : Nat) (req today : Int) (nowMicros : Nat) (s : String) (ts : Nat)
    (hst : noSundayRecord st) (hw : is_weekend req = true) :
    noSundayRecord (runSubmissions st subs) ∧
    mark_attendance st u req today nowMicros s ts = (st, .error .WeekendRejected) := by
  refine ⟨?_, (noSunday_step st u req today nowMicros s ts hst).2 hw⟩
  induction subs generalizing st with
  | nil => exact hst
  | cons x xs ih =>
    exact ih _ (noSunday_step st x.1 x.2.1 x.2.2.1 x.2.2.2.1 x.2.2.2.2.1 x.2.2.2.2.2 hst).1

/-- C2 witness: the amended invariant applied to the sequence made of the
Friday-after-cutoff rollover submission followed by a Tuesday submission, on
the empty store, together with the rejection of a Saturday request. -/
theorem no_sunday_record_invariant_witness :
    noSundayRecord (runSubmissions []
      [(1, daysFromCivil 2024 6 14, daysFromCivil 2024 6 14, 78300000000, "office", 7),
       (2, daysFromCivil 2024 6 11, daysFromCivil 2024 6 10, 0, "home", 8)]) ∧
    mark_attendance [] 1 (daysFromCivil 2024 6 15) (daysFromCivil 2024 6 15) 0 "office" 9 =
      ([], .error .WeekendRejected) :=
  no_sunday_record_invariant []
    [(1, daysFromCivil 2024 6 14, daysFromCivil 2024 6 14, 78300000000, "office", 7),
     (2, daysFromCivil 2024 6 11, daysFromCivil 2024 6 10, 0, "home", 8)]
    1 (daysFromCivil 2024 6 15) (daysFromCivil 2024 6 15) 0 "office" 9
    (by simp [noSundayRecord]) (by decide)

/-- The in-place update branch of `upsert` does not change how many rows
carry the key. -/
theorem countKey_map_upd (st : Store) (u : Nat) (d : Int) (s : String) (ts : Nat) :
    countKey (st.map (fun r => if keyMatch u d r then ⟨u, d, s, ts⟩ else r)) u d =
      countKey st u d := by
  induction st with
  | nil => rfl
  | cons a l ih =>
    by_cases hk : keyMatch u d a = true
    · simp only [List.map_cons, hk, if_true, countKey, List.filter_cons]
      have hnew : keyMatch u d ⟨u, d, s, ts⟩ = true := by simp [keyMatch]
      simp only [hnew, hk, if_true, List.length_cons]
      exact congrArg Nat.succ ih
    · simp only [List.map_cons, hk, if_false, Bool.false_eq_true, countKey, List.filter_cons]
      simpa [hk] using ih

/-- After an `upsert` on a store holding at most one row for the key, the
key has exactly one row. -/
theorem countKey_upsert (st : Store) (u : Nat) (d : Int) (s : String) (ts : Nat)
    (h : countKey st u d ≤ 1) : countKey (upsert st u d s ts) u d = 1 := by
  unfold upsert
  by_cases hany : st.any (keyMatch u d) = true
  · rw [if_pos hany, countKey_map_upd]
    rcases List.any_eq_true.mp hany with ⟨a, ha, hk⟩
    have hmem : a ∈ st.filter (keyMatch u d) := List.mem_filter.mpr ⟨ha, hk⟩
    have h1 : 0 < countKey st u d := List.length_pos.mpr (fun hnil => by simp [hnil] at hmem)
    omega
  · rw [if_neg hany]
    have hall := List.any_eq_false.mp (Bool.eq_false_iff.mpr hany)
    unfold countKey
    rw [List.filter_append]
    have h0 : st.filter (keyMatch u d) = [] :=
      List.filter_eq_nil_iff.mpr (fun a ha => by simpa using hall a ha)
    simp [h0, keyMatch]

/-- In the in-place update branch, the first row found for the key is the
freshly written one. -/
theorem find?_map_upd (st : Store) (u : Nat) (d : Int) (s : String) (ts : Nat)
    (hany : st.any (keyMatch u d) = true) :
    (st.map (fun r => if keyMatch u d r then ⟨u, d, s, ts⟩ else r)).find? (keyMatch u d) =
      some ⟨u, d, s, ts⟩ := by
  induction st with
  | nil => simp at hany
  | cons a l ih =>
    by_cases hk : keyMatch u d a = true
    · have hnew : keyMatch u d ⟨u, d, s, ts⟩ = true := by simp [keyMatch]
      simp [List.find?_cons, hk, hnew]
    · have hl : l.any (keyMatch u d) = true := by
        rcases List.any_eq_true.mp hany with ⟨x, hx, hkx⟩
        rcases List.mem_cons.mp hx with rfl | hx
        · exact absurd hkx hk
        · exact List.any_eq_true.mpr ⟨x, hx, hkx⟩
      simpa [List.find?_cons, hk] using ih hl

/-- After an `upsert`, looking the key up yields the just-written status and
timestamp: each call refreshes the stored row. -/
theorem lookupKey_upsert (st : Store) (u : Nat) (d : Int) (s : String) (ts : Nat) :
    lookupKey (upsert st u d s ts) u d = some (s, ts) := by
  unfold lookupKey upsert
  by_cases hany : st.any (keyMatch u d) = true
  · rw [if_pos hany, find?_map_upd st u d s ts hany]
    rfl
  · rw [if_neg hany]
    have hall := List.any_eq_false.mp (Bool.eq_false_iff.mpr hany)
    have hnone : st.find? (keyMatch u d) = none :=
      List.find?_eq_none.mpr (fun x hx => by simpa using hall x hx)
    rw [List.find?_append, hnone]
    simp [keyMatch]

/-- Folding repeated upserts keeps the at-most-one-row-per-key property. -/
theorem countKey_foldl_upsert (u : Nat) (d : Int) (s : String) (tss : List Nat)
    (st : Store) (h : countKey st u d ≤ 1) :
    countKey (tss.foldl (fun a ts => upsert a u d s ts) st) u d ≤ 1 := by
  induction tss generalizing st with
  | nil => exact h
  | cons t ts ih => exact ih _ (le_of_eq (countKey_upsert st u d s t h))

/-- C5: starting from a store holding at most one row for the key `(u, d)`,
any non-empty sequence of `upsert (u, d, s)` calls (timestamps
`tss ++ [tlast]`) leaves exactly one stored row for the key, whose status is
`s` and whose timestamp is the last call's timestamp — so each call
refreshes the timestamp and repeated upserts are idempotent on the set of
stored keys. -/
theorem upsert_idempotent (st : Store) (u : Nat) (d : Int) (s : String)
    (tss : List Nat) (tlast : Nat) (h : countKey st u d ≤ 1) :
    countKey ((tss ++ [tlast]).foldl (fun a ts => upsert a u d s ts) st) u d = 1 ∧
    lookupKey ((tss ++ [tlast]).foldl (fun a ts => upsert a u d s ts) st) u d =
      some (s, tlast) := by
  rw [List.foldl_append]
  have hmid := countKey_foldl_upsert u d s tss st h
  simp only [List.foldl_cons, List.foldl_nil]
  exact ⟨countKey_upsert _ u d s tlast hmid, lookupKey_upsert _ u d s tlast⟩

/-- C5 witness: three repeated upserts for the same user and date on the
empty store leave one row with the last timestamp. -/
theorem upsert_idempotent_witness :
    countKey (([5, 9] ++ [13]).foldl
        (fun a ts => upsert a 1 (daysFromCivil 2024 6 11) "office" ts) [])
      1 (daysFromCivil 2024 6 11) = 1 ∧
    lookupKey (([5, 9] ++ [13]).foldl
        (fun a ts => upsert a 1 (daysFromCivil 2024 6 11) "office" ts) [])
      1 (daysFromCivil 2024 6 11) = some ("office", 13) :=
  upsert_idempotent [] 1 (daysFromCivil 2024 6 11) "office" [5, 9] 13 (by decide)

/-- C9: the attendance query returns a permutation of exactly the user's
stored rows whose dates lie within the optional range (both bounds
inclusive), sorted descending by date; a row is returned iff it is stored,
belongs to the user and lies in the range. -/
theorem get_user_attendance_spec (st : Store) (u : Nat) (sd ed : Option Int) :
    (get_user_attendance st u sd ed).Perm
      (st.filter (fun r => r.user_id == u && inDateRange r.date sd ed)) ∧
    List.Sorted dateDesc (get_user_attendance st u sd ed) ∧
    ∀ r : AttendanceRecord, r ∈ get_user_attendance st u sd ed ↔
      r ∈ st ∧ r.user_id = u ∧ inDateRange r.date sd ed = true := by
  refine ⟨List.perm_insertionSort dateDesc _, List.sorted_insertionSort dateDesc _, ?_⟩
  intro r
  unfold get_user_attendance
  rw [(List.perm_insertionSort dateDesc _).mem_iff, List.mem_filter]
  simp [and_assoc]

/-- With no insert fault, the per-chef loop writes exactly one row per chef,
in order, each recording that chef's own send outcome; the warnings are the
sum of the per-send warnings and the loop is not aborted. -/
theorem dispatchLoop_no_fault (apiKey : Option String) (resp : String → Option Nat)
    (body : String) (oc : Nat) (cs : List String) (i : Nat) :
    dispatchLoop apiKey resp (fun _ => false) body oc i cs =
      (cs.map (fun c => mkLogEntry c body oc (send_email_notification apiKey resp c).1),
       (cs.map (fun c => (send_email_notification apiKey resp c).2)).sum, false) := by
  induction cs generalizing i with
  | nil => rfl
  | cons c cs ih => simp [dispatchLoop, ih (i + 1)]

/-- Every row the per-chef loop writes carries the office count and the body
the loop was given. -/
theorem dispatchLoop_mem (apiKey : Option String) (resp : String → Option Nat)
    (insF : Nat → Bool) (body : String) (oc : Nat) :
    ∀ (cs : List String) (i : Nat) (e : NotificationLogEntry),
      e ∈ (dispatchLoop apiKey resp insF body oc i cs).1 →
      e.office_count = oc ∧ e.content = body := by
  intro cs
  induction cs with
  | nil =>
    intro i e he
    simp [dispatchLoop] at he
  | cons c cs ih =>
    intro i e he
    rw [dispatchLoop] at he
    by_cases hf : insF i = true
    · simp [hf] at he
    · simp only [hf, Bool.false_eq_true, if_false, List.mem_cons] at he
      rcases he with he | he
      · subst he
        exact ⟨rfl, rfl⟩
      · exact ih (i + 1) e he

/-- If the `INSERT` fault fires at an index inside the recipient list, the
per-chef loop aborts. -/
theorem dispatchLoop_abort (apiKey : Option String) (resp : String → Option Nat)
    (body : String) (oc : Nat) (i : Nat) :
    ∀ (cs : List String) (i0 : Nat), i0 ≤ i → i < i0 + cs.length →
      (dispatchLoop apiKey resp (fun j => j == i) body oc i0 cs).2.2 = true := by
  intro cs
  induction cs with
  | nil =>
    intro i0 h1 h2
    simp at h2
    omega
  | cons c cs ih =>
    intro i0 h1 h2
    rw [dispatchLoop]
    by_cases hf : (i0 == i) = true
    · simp [hf]
    · have hne : i0 ≠ i := by simpa using hf
      simp only [hf, Bool.false_eq_true, if_false]
      exact ih (i0 + 1) (by omega) (by simp only [List.length_cons] at h2; omega)

/-- C6: in a fault-free dispatch run on a business day, the log rows are
exactly one per active chef, in list order, each recording its own chef's
send outcome — so one chef's gateway failure cannot suppress or alter any
other chef's attempt or row. -/
theorem dispatch_one_entry_per_chef (today : Int) (oc : Nat) (chefs : List String)
    (apiKey : Option String) (resp : String → Option Nat) (dateStr timeStr : String)
    (hw : is_weekend today = false) :
    (send_chef_notification today oc chefs apiKey resp dateStr timeStr
        (fun _ => false) false).attempts =
      chefs.map (fun c => mkLogEntry c (bodyTemplate dateStr oc timeStr) oc
        (send_email_notification apiKey resp c).1) := by
  unfold send_chef_notification
  rw [if_neg (by simp [hw])]
  by_cases hne : chefs.isEmpty = true
  · have : chefs = [] := List.isEmpty_iff.mp hne
    subst this
    rfl
  · rw [if_neg hne]
    simp [dispatchLoop_no_fault]

/-- C6 witness: three active chefs on Monday 2024-06-10, the gateway
answering 500 for exactly one of them: one row per chef, 2 sent and 1
failed, and the run completes. -/
theorem dispatch_one_entry_per_chef_witness :
    (send_chef_notification (daysFromCivil 2024 6 10) 7 ["a@x", "b@x", "c@x"] (some "key")
        (fun e => if e == "b@x" then some 500 else some 200) "June 10, 2024" "06:55 PM"
        (fun _ => false) false).attempts =
      ["a@x", "b@x", "c@x"].map (fun c => mkLogEntry c
        (bodyTemplate "June 10, 2024" 7 "06:55 PM") 7
        (send_email_notification (some "key")
          (fun e => if e == "b@x" then some 500 else some 200) c).1) ∧
    countStatus (send_chef_notification (daysFromCivil 2024 6 10) 7 ["a@x", "b@x", "c@x"]
        (some "key") (fun e => if e == "b@x" then some 500 else some 200) "June 10, 2024"
        "06:55 PM" (fun _ => false) false).attempts "sent" = 2 ∧
    countStatus (send_chef_notification (daysFromCivil 2024 6 10) 7 ["a@x", "b@x", "c@x"]
        (some "key") (fun e => if e == "b@x" then some 500 else some 200) "June 10, 2024"
        "06:55 PM" (fun _ => false) false).attempts "failed" = 1 := by
  refine ⟨dispatch_one_entry_per_chef (daysFromCivil 2024 6 10) 7 ["a@x", "b@x", "c@x"]
    (some "key") (fun e => if e == "b@x" then some 500 else some 200) "June 10, 2024"
    "06:55 PM" (by decide), by decide, by decide⟩

/-- Summing a constant 1 over a list counts its elements. -/
theorem sum_map_one {α : Type} (l : List α) : (l.map (fun _ => (1 : Nat))).sum = l.length := by
  induction l with
  | nil => rfl
  | cons a l ih =>
    simp [ih]
    omega

/-- C7 counterexample: with the gateway credential absent, a fault-free run
with two recipients logs the missing-credential warning twice — once per
recipient, not once per run as claimed. -/
theorem warning_once_per_run_counterexample :
    (send_chef_notification (daysFromCivil 2024 6 10) 7 ["a@x", "b@x"] none
        (fun _ => some 200) "d" "t" (fun _ => false) false).warnings = 2 := by
  decide

/-- C7 (amended): with the gateway credential absent, every recipient is
still attempted (one row each, nothing raises) and every row is recorded as
failed, but the warning is emitted once per recipient — `chefs.length`
warnings for the run, not a single one. -/
theorem no_credential_all_failed (today : Int) (oc : Nat) (chefs : List String)
    (resp : String → Option Nat) (dateStr timeStr : String) (e : NotificationLogEntry)
    (hw : is_weekend today = false)
    (he : e ∈ (send_chef_notification today oc chefs none resp dateStr timeStr
        (fun _ => false) false).attempts) :
    e.status = "failed" ∧
    (send_chef_notification today oc chefs none resp dateStr timeStr
        (fun _ => false) false).attempts.length = chefs.length ∧
    (send_chef_notification today oc chefs none resp dateStr timeStr
        (fun _ => false) false).warnings = chefs.length := by
  have hrw : send_chef_notification today oc chefs none resp dateStr timeStr
      (fun _ => false) false =
      if chefs.isEmpty then ⟨[], [], 0, false⟩ else
        ⟨chefs.map (fun c => mkLogEntry c (bodyTemplate dateStr oc timeStr) oc false),
         chefs.map (fun c => mkLogEntry c (bodyTemplate dateStr oc timeStr) oc false),
         (chefs.map (fun _ => 1)).sum, false⟩ := by
    unfold send_chef_notification
    rw [if_neg (by simp [hw])]
    by_cases hne : chefs.isEmpty = true
    · simp [hne]
    · simp only [hne, Bool.false_eq_true, if_false, dispatchLoop_no_fault]
      simp [send_email_notification]
  by_cases hne : chefs.isEmpty = true
  · rw [hrw, if_pos hne] at he
    simp at he
  · rw [hrw, if_neg hne] at he ⊢
    refine ⟨?_, by simp, by simp [sum_map_one]⟩
    · rcases List.mem_map.mp he with ⟨c, _, hc⟩
      rw [← hc]
      rfl

/-- C7 amended-claim witness: two chefs, no credential — the first row is
failed, both chefs have rows, and two warnings are logged. -/
theorem no_credential_all_failed_witness :
    (mkLogEntry "a@x" (bodyTemplate "d" 7 "t") 7 false).status = "failed" ∧
    (send_chef_notification (daysFromCivil 2024 6 10) 7 ["a@x", "b@x"] none
        (fun _ => some 200) "d" "t" (fun _ => false) false).attempts.length = 2 ∧
    (send_chef_notification (daysFromCivil 2024 6 10) 7 ["a@x", "b@x"] none
        (fun _ => some 200) "d" "t" (fun _ => false) false).warnings = 2 :=
  no_credential_all_failed (daysFromCivil 2024 6 10) 7 ["a@x", "b@x"]
    (fun _ => some 200) "d" "t" (mkLogEntry "a@x" (bodyTemplate "d" 7 "t") 7 false)
    (by decide) (by decide)

/-- C8 counterexample: two chefs, both sends succeed, but the log `INSERT`
for the second recipient raises: the first recipient's row was recorded
before the point of failure, yet nothing at all is durably persisted — the
single post-loop commit discards it. -/
theorem partial_persistence_counterexample :
    ((send_chef_notification (daysFromCivil 2024 6 10) 7 ["a@x", "b@x"] (some "k")
        (fun _ => some 200) "d" "t" (fun i => i == 1) false).attempts).map
      (fun e => e.recipient_email) = ["a@x"] ∧
    (send_chef_notification (daysFromCivil 2024 6 10) 7 ["a@x", "b@x"] (some "k")
        (fun _ => some 200) "d" "t" (fun i => i == 1) false).durable = [] := by
  decide

/-- C8 (amended): notification-log persistence is all-or-nothing per run —
an `INSERT` raising at any index inside the recipient list, or a failing
final commit, loses every row of the run including those recorded before
the fault; only a run whose inserts and commit all succeed persists its
rows (then exactly the attempted ones). -/
theorem all_or_nothing_persistence (today : Int) (oc : Nat) (chefs : List String)
    (apiKey : Option String) (resp : String → Option Nat) (dateStr timeStr : String)
    (i : Nat) (hw : is_weekend today = false) (hi : i < chefs.length) :
    (send_chef_notification today oc chefs apiKey resp dateStr timeStr
        (fun j => j == i) false).durable = [] ∧
    (send_chef_notification today oc chefs apiKey resp dateStr timeStr
        (fun _ => false) true).durable = [] ∧
    (send_chef_notification today oc chefs apiKey resp dateStr timeStr
        (fun _ => false) false).durable =
      (send_chef_notification today oc chefs apiKey resp dateStr timeStr
        (fun _ => false) false).attempts := by
  have hne : chefs.isEmpty = false := by
    cases chefs with
    | nil => simp at hi
    | cons c cs => rfl
  unfold send_chef_notification
  simp only [hw, Bool.false_eq_true, if_false, hne]
  refine ⟨?_, by simp [dispatchLoop_no_fault], by simp [dispatchLoop_no_fault]⟩
  rw [dispatchLoop_abort apiKey resp (bodyTemplate dateStr oc timeStr) oc i chefs 0
    (Nat.zero_le i) (by omega)]
  simp

/-- C8 amended-claim witness: the all-or-nothing behaviour on a concrete
two-chef run with the fault at the second insert. -/
theorem all_or_nothing_persistence_witness :
    (send_chef_notification (daysFromCivil 2024 6 10) 7 ["a@x", "b@x"] (some "k")
        (fun _ => some 200) "d" "t" (fun j => j == 1) false).durable = [] ∧
    (send_chef_notification (daysFromCivil 2024 6 10) 7 ["a@x", "b@x"] (some "k")
        (fun _ => some 200) "d" "t" (fun _ => false) true).durable = [] ∧
    (send_chef_notification (daysFromCivil 2024 6 10) 7 ["a@x", "b@x"] (some "k")
        (fun _ => some 200) "d" "t" (fun _ => false) false).durable =
      (send_chef_notification (daysFromCivil 2024 6 10) 7 ["a@x", "b@x"] (some "k")
        (fun _ => some 200) "d" "t" (fun _ => false) false).attempts :=
  all_or_nothing_persistence (daysFromCivil 2024 6 10) 7 ["a@x", "b@x"] (some "k")
    (fun _ => some 200) "d" "t" 1 (by decide) (by decide)

/-- C10: every log row a dispatch run produces — whatever the recipients,
faults or send outcomes — carries the office count read once before the
loop and the single message body built from it. -/
theorem dispatch_uniform_count_and_body (today : Int) (oc : Nat) (chefs : List String)
    (apiKey : Option String) (resp : String → Option Nat) (dateStr timeStr : String)
    (insF : Nat → Bool) (commitF : Bool) (e : NotificationLogEntry)
    (he : e ∈ (send_chef_notification today oc chefs apiKey resp dateStr timeStr
        insF commitF).attempts) :
    e.office_count = oc ∧ e.content = bodyTemplate dateStr oc timeStr := by
  unfold send_chef_notification at he
  by_cases hw : is_weekend today = true
  · simp [hw] at he
  · rw [if_neg (by simp [hw])] at he
    by_cases hne : chefs.isEmpty = true
    · rw [if_pos hne] at he
      simp at he
    · rw [if_neg hne] at he
      exact dispatchLoop_mem apiKey resp insF (bodyTemplate dateStr oc timeStr) oc chefs 0 e he

/-- C10 witness: the uniformity applied to the single row of a one-chef
run. -/
theorem dispatch_uniform_count_and_body_witness :
    (mkLogEntry "a@x" (bodyTemplate "d" 7 "t") 7 true).office_count = 7 ∧
    (mkLogEntry "a@x" (bodyTemplate "d" 7 "t") 7 true).content = bodyTemplate "d" 7 "t" :=
  dispatch_uniform_count_and_body (daysFromCivil 2024 6 10) 7 ["a@x"] (some "k")
    (fun _ => some 200) "d" "t" (fun _ => false) false
    (mkLogEntry "a@x" (bodyTemplate "d" 7 "t") 7 true) (by decide)

end Lunch
